import Mathlib

/-!
Shallow embedding of the stdgpu concurrent vector
(`src/stdgpu/impl/vector_detail.cuh`) together with the three primitives it
composes: an atomic size counter, a per-slot mutex array and an occupancy
bitset.  The vector code is translated line by line from the source; the
primitives are not part of the given sources, so their contracts are modelled
from the specification (sections 4.1 - 4.3), as noted on each definition.

The embedding gives the sequential (quiescent, single-thread) semantics of the
device functions.  The spin loop inside `push_back` / `pop_back` either
terminates in its first iteration (the per-slot lock is free and the slot is in
the expected occupancy state) or repeats forever with unchanged state, so the
functions return `Option`: `none` models the non-terminating spin.  Machine
integers (`int`, `index_t`) are modelled by `Int`; no claim involves values
anywhere near the overflow boundary.
-/

/-- Modelled from the spec (section 4.2): `mutex_array` is a sequence of
per-slot lock cells, each free or held; its `valid()` reports that all locks
are currently free.  The cell states are the whole observable state. -/
structure mutex_array where
  locked : List Bool
deriving Repr, DecidableEq

/-- Modelled from the spec (section 4.2): `valid()` reports whether all locks
are currently free. -/
def mutex_array.valid (m : mutex_array) : Bool :=
  m.locked.all (fun b => !b)

/-- Modelled from the spec (section 4.3): `bitset` is one bit per index. -/
structure bitset where
  bits : List Bool
deriving Repr, DecidableEq

/-- Modelled from the spec (section 4.3): `operator[](i)` atomically reads
bit `i`. -/
def bitset.get (b : bitset) (i : Nat) : Bool :=
  b.bits.getD i false

/-- Modelled from the spec (section 4.3): `set(i)` atomically marks bit `i`
true and returns the previous value. -/
def bitset.set (b : bitset) (i : Nat) : bitset × Bool :=
  (⟨b.bits.set i true⟩, b.get i)

/-- Modelled from the spec (section 4.3): `reset(i)` atomically marks bit `i`
false and returns the previous value. -/
def bitset.reset1 (b : bitset) (i : Nat) : bitset × Bool :=
  (⟨b.bits.set i false⟩, b.get i)

/-- Modelled from the spec (section 4.3): `reset()` with no argument clears
the whole bitset. -/
def bitset.resetAll (b : bitset) : bitset :=
  ⟨b.bits.map (fun _ => false)⟩

/-- Modelled from the spec (section 4.3): `count()` returns the number of set
bits.  Returned as `Int` because the caller compares it with `index_t`. -/
def bitset.count (b : bitset) : Int :=
  (b.bits.countP (fun x => x) : Nat)

/-- The concurrent vector state: `vector<T>` owns a data buffer, a per-slot
mutex array, an occupancy bitset, an atomic size counter (a raw `int` cell,
modelled as `Int`) and a fixed capacity (`index_t`, modelled as `Int`).
Mirrors the members `_data`, `_locks`, `_occupied`, `_size`, `_capacity`. -/
structure vector (T : Type) where
  _data : List T
  _locks : mutex_array
  _occupied : bitset
  _size : Int
  _capacity : Int
deriving Repr, DecidableEq

/-- Source `vector<T>::capacity()`: returns `_capacity`. -/
def vector.capacity {T : Type} (v : vector T) : Int :=
  v._capacity

/-- Source `vector<T>::max_size()`: returns `capacity()`. -/
def vector.max_size {T : Type} (v : vector T) : Int :=
  v.capacity

/-- Source `vector<T>::size()`: loads the raw counter and clamps it, negative
to `0` and above `_capacity` to `_capacity` (the printf diagnostics carry no
state).  A pure read: the counter is only loaded. -/
def vector.size {T : Type} (v : vector T) : Int :=
  let current_size := v._size
  if current_size < 0 then 0
  else if current_size > v._capacity then v._capacity
  else current_size

/-- Source `vector<T>::empty()`: returns `size() == 0`. -/
def vector.empty {T : Type} (v : vector T) : Bool :=
  v.size == 0

/-- Source `vector<T>::full()`: returns `size() == max_size()`. -/
def vector.full {T : Type} (v : vector T) : Bool :=
  v.size == v.max_size

/-- Source `vector<T>::occupied(n)`: reads `_occupied[n]` (preconditions
`0 <= n < capacity()` hold at every call site below). -/
def vector.occupied {T : Type} (v : vector T) (n : Int) : Bool :=
  v._occupied.get n.toNat

/-- Source `vector<T>::push_back`, the part after the preemptive `full()`
check.  The reservation `int push_position = _size++;` is a postfix
fetch-and-add: `push_position` is the pre-increment counter value and the
counter is left incremented on every path (the spec, section 4.1, gives the
counter fetch-and-add semantics).  The bounds check, the failure branch (which
only prints) and the critical section mirror the source.  Sequentially the
spin loop terminates in its first iteration exactly when the slot's lock is
free and the slot is unoccupied; otherwise every iteration repeats the same
state, so the result is `none` (non-termination). -/
def vector.push_back_reserve {T : Type} (v : vector T) (element : T) :
    Option (vector T × Bool) :=
  let push_position := v._size
  let v1 : vector T := { v with _size := v._size + 1 }
  if 0 ≤ push_position ∧ push_position < v1._capacity then
    if v1._locks.locked.getD push_position.toNat false then
      none
    else if v1.occupied push_position then
      none
    else
      some ({ v1 with
                _data := v1._data.set push_position.toNat element,
                _occupied := (v1._occupied.set push_position.toNat).1 },
            true)
  else
    some (v1, false)

/-- Source `vector<T>::push_back`: preemptive `full()` check returning
`pushed = false` with no side effect, then the reservation and critical
section of `push_back_reserve`. -/
def vector.push_back {T : Type} (v : vector T) (element : T) :
    Option (vector T × Bool) :=
  if v.full then some (v, false)
  else v.push_back_reserve element

/-- The slot index reserved by `pop_back`, from the source line
`int pop_position = --_size;`: prefix decrement of an `atomic<int>` returns
the post-decrement value (fetch-and-sub minus one), so the reserved index is
one below the counter value at entry. -/
def vector.pop_reserved_position {T : Type} (v : vector T) : Int :=
  v._size - 1

/-- Modelled from the spec, for comparison with `pop_reserved_position`: the
spec text reads the reserved pop position as the pre-decrement counter value
("position is the pre-decrement value, i.e., one past the new size"). -/
def vector.pop_reserved_position_claimed {T : Type} (v : vector T) : Int :=
  v._size

/-- Source `vector<T>::pop_back`, the part after the preemptive `empty()`
check.  `int pop_position = --_size;` decrements the counter and reserves the
post-decrement value; the counter stays decremented on every path.  Inside
the critical section, when the slot is occupied, the occupancy bit is reset,
the element is read out, the data slot is re-set to a default-constructed
value and `(element, true)` is returned; when the slot is unoccupied the loop
body leaves the state unchanged and the spin repeats forever (`none`), and a
held lock likewise spins forever. -/
def vector.pop_back_reserve {T : Type} [Inhabited T] (v : vector T) :
    Option ((T × Bool) × vector T) :=
  let v1 : vector T := { v with _size := v._size - 1 }
  let pop_position := v.pop_reserved_position
  if 0 ≤ pop_position ∧ pop_position < v1._capacity then
    if v1._locks.locked.getD pop_position.toNat false then
      none
    else if v1.occupied pop_position then
      let element := v1._data.getD pop_position.toNat default
      some ((element, true),
            { v1 with
                _occupied := (v1._occupied.reset1 pop_position.toNat).1,
                _data := v1._data.set pop_position.toNat default })
    else
      none
  else
    some ((default, false), v1)

/-- Source `vector<T>::pop_back`: starts from `popped = (T(), false)` (a
default-constructed value models `T()`), returns it unchanged on the
preemptive `empty()` check, otherwise runs the reservation and critical
section of `pop_back_reserve`. -/
def vector.pop_back {T : Type} [Inhabited T] (v : vector T) :
    Option ((T × Bool) × vector T) :=
  if v.empty then some ((default, false), v)
  else v.pop_back_reserve

/-- Source `thrust::fill(device_begin(_data), device_begin(_data) + n, T())`:
the first `n` slots of the buffer are overwritten with a default-constructed
value. -/
def thrust_fill {T : Type} [Inhabited T] (l : List T) (n : Nat) : List T :=
  ((l.take n).map (fun _ => (default : T))) ++ l.drop n

/-- Source `vector<T>::size_valid()`: the raw counter lies in
`[0, _capacity]`. -/
def vector.size_valid {T : Type} (v : vector T) : Bool :=
  decide (0 ≤ v._size ∧ v._size ≤ v._capacity)

/-- Source `vector<T>::occupied_count_valid()`: the bitset population count
equals the reported (clamped) `size()`. -/
def vector.occupied_count_valid {T : Type} (v : vector T) : Bool :=
  v.size == v._occupied.count

/-- Source `vector<T>::valid()`: capacity `0` is trivially valid, otherwise
`size_valid() && occupied_count_valid() && _locks.valid()`. -/
def vector.valid {T : Type} (v : vector T) : Bool :=
  if v.capacity == 0 then true
  else v.size_valid && v.occupied_count_valid && v._locks.valid

/-- Source `vector<T>::clear()`: early return when `empty()`, otherwise fill
the active prefix `[0, size())` with default-constructed values, reset the
whole occupancy bitset and store `0` into the counter.  The locks are not
touched. -/
def vector.clear {T : Type} [Inhabited T] (v : vector T) : vector T :=
  if v.empty then v
  else
    let current_size := v.size
    { v with
        _data := thrust_fill v._data current_size.toNat,
        _occupied := v._occupied.resetAll,
        _size := 0 }

/-- Source `vector<T>::createDeviceObject(size)` (precondition
`STDGPU_EXPECTS(size > 0)`): `_data = createDeviceArray<T>(size, T())` gives a
buffer of `size` default-constructed elements; the factories of the three
primitives are modelled from the spec (sections 4.1 - 4.3 and 6): a mutex
array with all locks free, a bitset with all bits false and an atomic counter
holding `0`. -/
def vector.createDeviceObject (T : Type) [Inhabited T] (size : Int) :
    vector T :=
  { _data := List.replicate size.toNat default,
    _locks := ⟨List.replicate size.toNat false⟩,
    _occupied := ⟨List.replicate size.toNat false⟩,
    _size := 0,
    _capacity := size }

/-- A quiescent vector state (spec sections 3 and 8): no operation is in
flight, so no lock is held, the counter lies in `[0, capacity]`, the occupied
bits are exactly the active prefix `[0, size)` of the buffer, every
unoccupied slot holds a default-constructed element, and the owned arrays
have length `capacity`. -/
def Quiescent {T : Type} [Inhabited T] (v : vector T) : Prop :=
  v._data.length = v._capacity.toNat ∧
  v._occupied.bits.length = v._capacity.toNat ∧
  v._locks.locked.length = v._capacity.toNat ∧
  0 ≤ v._size ∧ v._size ≤ v._capacity ∧
  (∀ i : Nat, i < v._capacity.toNat → v._locks.locked.getD i false = false) ∧
  (∀ i : Nat, i < v._capacity.toNat →
    v._occupied.get i = decide (i < v._size.toNat)) ∧
  (∀ i : Nat, i < v._capacity.toNat → v._occupied.get i = false →
    v._data.getD i default = default)

instance {T : Type} [Inhabited T] [DecidableEq T] (v : vector T) :
    Decidable (Quiescent v) := by
  unfold Quiescent
  infer_instance

theorem getD_set_lt {α : Type} (l : List α) (n : Nat) (a d : α)
    (h : n < l.length) : (l.set n a).getD n d = a := by
  simp [List.getD, List.getElem?_set_self, h]

theorem getD_set_ne {α : Type} (l : List α) (m n : Nat) (a d : α)
    (h : m ≠ n) : (l.set m a).getD n d = l.getD n d := by
  simp [List.getD, List.getElem?_set_ne, h]


/-- C1: on a quiescent, valid, non-full vector, push_back(e) followed by
pop_back() returns the pair (e, true), leaves the used slot unoccupied with
its data storage reset to a default-constructed value, and restores size() to
its value before the push. -/
theorem C1_push_pop_round_trip {T : Type} [Inhabited T] (v : vector T) (e : T)
    (hq : Quiescent v) (hf : v.full = false) :
    ∃ v1 v2, v.push_back e = some (v1, true) ∧
      v1.pop_back = some ((e, true), v2) ∧
      v2._occupied.get v._size.toNat = false ∧
      v2._data.getD v._size.toNat default = default ∧
      v2.size = v.size := by
  obtain ⟨hdlen, hblen, hllen, hs0, hscap, hlocks, hocc, hdata⟩ := hq
  have hsize : v.size = v._size := by
    simp only [vector.size]
    split_ifs <;> omega
  have hslt : v._size < v._capacity := by
    have h1 : ¬ v.size = v.max_size := by
      simpa [vector.full] using hf
    simp only [vector.max_size, vector.capacity, hsize] at h1
    omega
  have hnat : v._size.toNat < v._capacity.toNat := by omega
  have hlock : v._locks.locked.getD v._size.toNat false = false :=
    hlocks v._size.toNat hnat
  have hoccp : v._occupied.get v._size.toNat = false := by
    have h := hocc v._size.toNat hnat
    simp at h
    exact h
  have harith : v._size + 1 - 1 = v._size := by omega
  refine ⟨⟨v._data.set v._size.toNat e, v._locks,
            ⟨v._occupied.bits.set v._size.toNat true⟩,
            v._size + 1, v._capacity⟩,
          ⟨(v._data.set v._size.toNat e).set v._size.toNat default, v._locks,
            ⟨(v._occupied.bits.set v._size.toNat true).set v._size.toNat false⟩,
            v._size + 1 - 1, v._capacity⟩,
          ?_, ?_, ?_, ?_, ?_⟩
  · simp only [vector.push_back, hf, Bool.false_eq_true, if_false,
      vector.push_back_reserve, vector.occupied, bitset.get, bitset.set]
    rw [if_pos ⟨hs0, hslt⟩]
    have hlock2 : v._locks.locked[v._size.toNat]?.getD false = false := by
      simpa [List.getD] using hlock
    have hoccp2 : v._occupied.bits[v._size.toNat]?.getD false = false := by
      simpa [bitset.get, List.getD] using hoccp
    simp [hlock2, hoccp2]
  · have hempty : vector.empty
        (⟨v._data.set v._size.toNat e, v._locks,
          ⟨v._occupied.bits.set v._size.toNat true⟩,
          v._size + 1, v._capacity⟩ : vector T) = false := by
      simp only [vector.empty, vector.size]
      simp only [beq_eq_false_iff_ne, ne_eq]
      split_ifs <;> omega
    simp only [vector.pop_back, hempty, Bool.false_eq_true, if_false,
      vector.pop_back_reserve, vector.pop_reserved_position, harith,
      vector.occupied, bitset.get, bitset.reset1]
    rw [if_pos ⟨hs0, hslt⟩]
    have hget : (v._occupied.bits.set v._size.toNat true).getD v._size.toNat
        false = true := by
      rw [getD_set_lt]
      omega
    have hel : ((v._data.set v._size.toNat e)).getD v._size.toNat default
        = e := by
      rw [getD_set_lt]
      omega
    have hlock2 : v._locks.locked[v._size.toNat]?.getD false = false := by
      simpa [List.getD] using hlock
    have hget2 : (v._occupied.bits.set v._size.toNat
        true)[v._size.toNat]?.getD false = true := by
      simpa [List.getD] using hget
    have hel2 : (v._data.set v._size.toNat e)[v._size.toNat]?.getD default
        = e := by
      simpa [List.getD] using hel
    simp [hlock2, hget2, hel2]
  · show ((v._occupied.bits.set v._size.toNat true).set v._size.toNat
      false).getD v._size.toNat false = false
    exact getD_set_lt _ _ _ _ (by simp only [List.length_set]; omega)
  · show (((v._data.set v._size.toNat e).set v._size.toNat
      default)).getD v._size.toNat default = default
    exact getD_set_lt _ _ _ _ (by simp only [List.length_set]; omega)
  · simp only [vector.size, harith]

theorem C1_witness :
    ∃ v1 v2,
      vector.push_back (⟨[0], ⟨[false]⟩, ⟨[false]⟩, 0, 1⟩ : vector Int) 5
        = some (v1, true) ∧
      v1.pop_back = some ((5, true), v2) ∧
      v2._occupied.get (0 : Int).toNat = false ∧
      v2._data.getD (0 : Int).toNat default = default ∧
      v2.size = vector.size (⟨[0], ⟨[false]⟩, ⟨[false]⟩, 0, 1⟩ : vector Int) :=
  C1_push_pop_round_trip (⟨[0], ⟨[false]⟩, ⟨[false]⟩, 0, 1⟩ : vector Int) 5
    (by decide) (by decide)

theorem getD_set_default {α : Type} (l : List α) (i : Nat) (d : α) :
    (l.set i d).getD i d = d := by
  by_cases h : i < l.length
  · exact getD_set_lt _ _ _ _ h
  · have h2 : (l.set i d).length ≤ i := by
      simpa [List.length_set] using Nat.le_of_not_lt h
    simp [List.getD, List.getElem?_eq_none h2]

/-- C2 counterexample: on the concrete one-element state with counter 1 the
reserved pop position is 0 (the post-decrement counter value), not 1 (the
pre-decrement value the claim states), and pop_back succeeds popping slot 0. -/
theorem C2_counterexample :
    vector.pop_reserved_position (⟨[7], ⟨[false]⟩, ⟨[true]⟩, 1, 1⟩ : vector Int)
      ≠ vector.pop_reserved_position_claimed
        (⟨[7], ⟨[false]⟩, ⟨[true]⟩, 1, 1⟩ : vector Int) ∧
    vector.pop_reserved_position
      (⟨[7], ⟨[false]⟩, ⟨[true]⟩, 1, 1⟩ : vector Int) = 0 ∧
    vector.pop_back (⟨[7], ⟨[false]⟩, ⟨[true]⟩, 1, 1⟩ : vector Int)
      = some ((7, true), ⟨[0], ⟨[false]⟩, ⟨[false]⟩, 0, 1⟩) := by
  refine ⟨by decide, by decide, by decide⟩

/-- C2 (amended): in pop_back, after the preemptive empty() check passes, the
reserved slot position equals the value of the size counter after the atomic
decrement (the new size): if the counter held s, the popped slot index is
s - 1 and the counter afterwards holds s - 1; on success the returned value
is read from slot s - 1 and that slot's occupancy bit is cleared. -/
theorem C2_pop_position_amended {T : Type} [Inhabited T] (v : vector T)
    (r : (T × Bool) × vector T)
    (h : v.empty = false) (hr : v.pop_back = some r) :
    v.pop_back = v.pop_back_reserve ∧
    v.pop_reserved_position = v._size - 1 ∧
    r.2._size = v._size - 1 ∧
    (r.1.2 = true →
      r.1.1 = v._data.getD (v._size - 1).toNat default ∧
      r.2._occupied.get (v._size - 1).toNat = false) := by
  have hdisp : v.pop_back = v.pop_back_reserve := by
    simp [vector.pop_back, h]
  rw [hdisp] at hr
  refine ⟨hdisp, rfl, ?_, ?_⟩
  · simp only [vector.pop_back_reserve, vector.pop_reserved_position] at hr
    split at hr
    · split at hr
      · exact absurd hr (by simp)
      · split at hr
        · simp only [Option.some.injEq] at hr
          subst hr
          rfl
        · exact absurd hr (by simp)
    · simp only [Option.some.injEq] at hr
      subst hr
      rfl
  · intro hs
    simp only [vector.pop_back_reserve, vector.pop_reserved_position] at hr
    split at hr
    · split at hr
      · exact absurd hr (by simp)
      · split at hr
        · simp only [Option.some.injEq] at hr
          subst hr
          refine ⟨rfl, ?_⟩
          show ((v._occupied.bits.set (v._size - 1).toNat false).getD
            (v._size - 1).toNat false) = false
          exact getD_set_default _ _ _
        · exact absurd hr (by simp)
    · simp only [Option.some.injEq] at hr
      subst hr
      simp at hs

/-- C2 witness: the amended theorem applied to a concrete one-element
vector. -/
theorem C2_witness :
    vector.pop_back (⟨[7], ⟨[false]⟩, ⟨[true]⟩, 1, 1⟩ : vector Int)
      = vector.pop_back_reserve (⟨[7], ⟨[false]⟩, ⟨[true]⟩, 1, 1⟩ : vector Int) ∧
    vector.pop_reserved_position
      (⟨[7], ⟨[false]⟩, ⟨[true]⟩, 1, 1⟩ : vector Int) = 1 - 1 ∧
    (⟨[0], ⟨[false]⟩, ⟨[false]⟩, 0, 1⟩ : vector Int)._size = 1 - 1 ∧
    ((7, true).2 = true →
      (7, true).1 = List.getD [(7 : Int)] (1 - 1 : Int).toNat default ∧
      bitset.get ⟨[false]⟩ (1 - 1 : Int).toNat = false) :=
  C2_pop_position_amended (⟨[7], ⟨[false]⟩, ⟨[true]⟩, 1, 1⟩ : vector Int)
    ((7, true), ⟨[0], ⟨[false]⟩, ⟨[false]⟩, 0, 1⟩) (by decide) (by decide)

/-- C3: in push_back, after the preemptive full() check passes, the claimed
slot position equals the counter value before the atomic increment (the
previous size): a successful push stores the element at index equal to the
old counter and leaves the counter incremented; if the claimed position lies
outside [0, capacity), push_back reports false with the counter still
incremented (not rolled back), so the raw counter can exceed capacity. -/
theorem C3_push_position {T : Type} [Inhabited T] (v : vector T) (e : T)
    (r : vector T × Bool)
    (hd : v._data.length = v._capacity.toNat)
    (hb : v._occupied.bits.length = v._capacity.toNat)
    (hr : v.push_back e = some r) :
    (r.2 = true →
      r.1._size = v._size + 1 ∧
      r.1._data.getD v._size.toNat default = e ∧
      r.1._occupied.get v._size.toNat = true) ∧
    (¬ (0 ≤ v._size ∧ v._size < v._capacity) →
      v.push_back_reserve e = some ({ v with _size := v._size + 1 }, false)) := by
  constructor
  · intro hs
    simp only [vector.push_back] at hr
    split at hr
    · simp only [Option.some.injEq] at hr
      rw [← hr] at hs
      exact absurd hs (by simp)
    · simp only [vector.push_back_reserve] at hr
      split at hr
      · rename_i hin
        split at hr
        · exact absurd hr (by simp)
        · split at hr
          · exact absurd hr (by simp)
          · rename_i hin2 hlock2 hocc2
            have hpos : v._size.toNat < v._capacity.toNat := by omega
            simp only [Option.some.injEq] at hr
            subst hr
            refine ⟨rfl, ?_, ?_⟩
            · show (v._data.set v._size.toNat e).getD v._size.toNat default = e
              exact getD_set_lt _ _ _ _ (by omega)
            · show bitset.get ⟨v._occupied.bits.set v._size.toNat true⟩
                v._size.toNat = true
              show (v._occupied.bits.set v._size.toNat true).getD
                v._size.toNat false = true
              exact getD_set_lt _ _ _ _ (by omega)
      · simp only [Option.some.injEq] at hr
        rw [← hr] at hs
        exact absurd hs (by simp)
  · intro hout
    simp only [vector.push_back_reserve]
    rw [if_neg]
    exact hout

/-- C3 witness: applied to a full one-slot vector; the reservation part shows
the counter overshooting to 2 with capacity 1. -/
theorem C3_witness :
    (((⟨[3], ⟨[false]⟩, ⟨[true]⟩, 1, 1⟩ : vector Int), false).2 = true →
      ((⟨[3], ⟨[false]⟩, ⟨[true]⟩, 1, 1⟩ : vector Int), false).1._size
          = 1 + 1 ∧
      List.getD [(3 : Int)] (1 : Int).toNat default = 9 ∧
      bitset.get ⟨[true]⟩ (1 : Int).toNat = true) ∧
    (¬ ((0 : Int) ≤ 1 ∧ (1 : Int) < 1) →
      vector.push_back_reserve (⟨[3], ⟨[false]⟩, ⟨[true]⟩, 1, 1⟩ : vector Int) 9
        = some (⟨[3], ⟨[false]⟩, ⟨[true]⟩, 1 + 1, 1⟩, false)) :=
  C3_push_position (⟨[3], ⟨[false]⟩, ⟨[true]⟩, 1, 1⟩ : vector Int) 9
    ((⟨[3], ⟨[false]⟩, ⟨[true]⟩, 1, 1⟩ : vector Int), false) (by decide)
    (by decide) (by decide)

/-- C4: when size() equals capacity at entry, push_back(e) returns false and
changes no state (the result state is the entry state itself: counter,
occupancy bitset and data buffer unchanged). -/
theorem C4_full_push_no_effect {T : Type} [Inhabited T] (v : vector T) (e : T)
    (h : v.size = v.capacity) :
    v.push_back e = some (v, false) := by
  have hfull : v.full = true := by
    simp [vector.full, vector.max_size, h]
  simp [vector.push_back, hfull]

/-- C4 witness: pushing onto a full capacity-1 vector fails without change. -/
theorem C4_witness :
    vector.push_back (⟨[3], ⟨[false]⟩, ⟨[true]⟩, 1, 1⟩ : vector Int) 9
      = some ((⟨[3], ⟨[false]⟩, ⟨[true]⟩, 1, 1⟩ : vector Int), false) :=
  C4_full_push_no_effect (⟨[3], ⟨[false]⟩, ⟨[true]⟩, 1, 1⟩ : vector Int) 9
    (by decide)

/-- C5: when size() equals 0 at entry, pop_back() returns a
default-constructed value paired with false and changes no state (the result
state is the entry state itself), and size() remains 0 afterwards. -/
theorem C5_empty_pop_no_effect {T : Type} [Inhabited T] (v : vector T)
    (h : v.size = 0) :
    v.pop_back = some ((default, false), v) ∧ v.size = 0 := by
  have hempty : v.empty = true := by
    simp [vector.empty, h]
  exact ⟨by simp [vector.pop_back, hempty], h⟩

/-- C5 witness: popping from an empty capacity-2 vector fails without
change. -/
theorem C5_witness :
    vector.pop_back (⟨[0, 0], ⟨[false, false]⟩, ⟨[false, false]⟩, 0, 2⟩ :
      vector Int) = some ((default, false),
        ⟨[0, 0], ⟨[false, false]⟩, ⟨[false, false]⟩, 0, 2⟩) ∧
    vector.size (⟨[0, 0], ⟨[false, false]⟩, ⟨[false, false]⟩, 0, 2⟩ :
      vector Int) = 0 :=
  C5_empty_pop_no_effect
    (⟨[0, 0], ⟨[false, false]⟩, ⟨[false, false]⟩, 0, 2⟩ : vector Int)
    (by decide)

/-- C6: for every raw counter value, size() reports 0 when the counter is
negative, capacity when the counter exceeds capacity, and the raw value
otherwise, so the reported value always satisfies 0 <= size() <= capacity.
The embedding of size() is a pure function of the state: it modifies neither
the counter nor any other component. -/
theorem C6_size_clamps {T : Type} (v : vector T) (h : 0 ≤ v._capacity) :
    (v._size < 0 → v.size = 0) ∧
    (v._size > v._capacity → v.size = v._capacity) ∧
    (0 ≤ v._size → v._size ≤ v._capacity → v.size = v._size) ∧
    0 ≤ v.size ∧ v.size ≤ v._capacity := by
  simp only [vector.size]
  refine ⟨?_, ?_, ?_, ?_, ?_⟩ <;> (intros; split_ifs <;> omega)

/-- C6 witness: a state whose raw counter is -3 reports size 0. -/
theorem C6_witness :
    ((⟨[0], ⟨[false]⟩, ⟨[false]⟩, -3, 1⟩ : vector Int)._size < 0 →
      vector.size (⟨[0], ⟨[false]⟩, ⟨[false]⟩, -3, 1⟩ : vector Int) = 0) ∧
    ((⟨[0], ⟨[false]⟩, ⟨[false]⟩, -3, 1⟩ : vector Int)._size > 1 →
      vector.size (⟨[0], ⟨[false]⟩, ⟨[false]⟩, -3, 1⟩ : vector Int) = 1) ∧
    ((0 : Int) ≤ -3 → (-3 : Int) ≤ 1 →
      vector.size (⟨[0], ⟨[false]⟩, ⟨[false]⟩, -3, 1⟩ : vector Int) = -3) ∧
    (0 : Int) ≤ vector.size (⟨[0], ⟨[false]⟩, ⟨[false]⟩, -3, 1⟩ : vector Int) ∧
    vector.size (⟨[0], ⟨[false]⟩, ⟨[false]⟩, -3, 1⟩ : vector Int) ≤ 1 :=
  C6_size_clamps (⟨[0], ⟨[false]⟩, ⟨[false]⟩, -3, 1⟩ : vector Int) (by decide)

theorem thrust_fill_take {T : Type} [Inhabited T] :
    ∀ (l : List T) (n : Nat),
      (thrust_fill l n).take n = List.replicate (min n l.length) default
  | _, 0 => by simp [thrust_fill]
  | [], _ => by simp [thrust_fill]
  | (x :: xs), (n + 1) => by
      have ih := thrust_fill_take xs n
      simp only [thrust_fill, List.take_succ_cons, List.map_cons,
        List.cons_append, List.drop_succ_cons, List.length_cons]
      rw [show ((xs.take n).map (fun _ => (default : T)) ++ xs.drop n)
          = thrust_fill xs n from rfl]
      rw [ih]
      rw [Nat.succ_min_succ, List.replicate_succ]

theorem resetAll_bits (b : bitset) :
    (bitset.resetAll b).count = 0 ∧
    (bitset.resetAll b).bits = List.replicate b.bits.length false := by
  constructor
  · simp [bitset.resetAll, bitset.count, List.countP_eq_zero]
  · simp [bitset.resetAll, List.map_const']

/-- C7 counterexample: a state with raw counter -1 (reachable quiescently
when concurrent pops both passed the empty() check) is empty(), so clear()
returns early: the counter still holds -1, not 0, and valid() is false. -/
theorem C7_counterexample :
    (vector.clear (⟨[5], ⟨[false]⟩, ⟨[false]⟩, -1, 1⟩ : vector Int))._size
      ≠ 0 ∧
    (vector.clear (⟨[5], ⟨[false]⟩, ⟨[false]⟩, -1, 1⟩ : vector Int)).valid
      = false := by
  refine ⟨by decide, by decide⟩

/-- C7 (amended): for every vector state on which empty() is false, no lock
is held and the capacity is nonnegative, after clear() returns the active
prefix at entry holds default-constructed values, the occupancy bitset is
all-false, the size counter holds 0, and the container is empty() and
valid(). -/
theorem C7_clear_amended {T : Type} [Inhabited T] (v : vector T)
    (hne : v.empty = false) (hlocks : v._locks.valid = true)
    (hcap : 0 ≤ v._capacity) :
    (v.clear)._data.take v.size.toNat
      = List.replicate (min v.size.toNat v._data.length) default ∧
    (v.clear)._occupied.bits = List.replicate v._occupied.bits.length false ∧
    (v.clear)._size = 0 ∧
    (v.clear).empty = true ∧
    (v.clear).valid = true := by
  have hcl : v.clear = ⟨thrust_fill v._data v.size.toNat, v._locks,
      v._occupied.resetAll, 0, v._capacity⟩ := by
    simp [vector.clear, hne]
  have h1 : ¬ (0 : Int) > v._capacity := by omega
  rw [hcl]
  refine ⟨thrust_fill_take _ _, (resetAll_bits _).2, rfl, ?_, ?_⟩
  · simp [vector.empty, vector.size, h1]
  · by_cases hc : v._capacity = 0
    · simp [vector.valid, vector.capacity, hc]
    · simp [vector.valid, vector.capacity, hc, vector.size_valid,
        vector.occupied_count_valid, vector.size, h1, hcap,
        (resetAll_bits v._occupied).1, hlocks]

/-- C7 witness: the amended theorem applied to a non-empty two-slot
vector. -/
theorem C7_witness :
    (vector.clear (⟨[5, 6], ⟨[false, false]⟩, ⟨[true, false]⟩, 1, 2⟩ :
        vector Int))._data.take
      (vector.size (⟨[5, 6], ⟨[false, false]⟩, ⟨[true, false]⟩, 1, 2⟩ :
        vector Int)).toNat
      = List.replicate (min (vector.size (⟨[5, 6], ⟨[false, false]⟩,
        ⟨[true, false]⟩, 1, 2⟩ : vector Int)).toNat 2) default ∧
    (vector.clear (⟨[5, 6], ⟨[false, false]⟩, ⟨[true, false]⟩, 1, 2⟩ :
      vector Int))._occupied.bits = List.replicate 2 false ∧
    (vector.clear (⟨[5, 6], ⟨[false, false]⟩, ⟨[true, false]⟩, 1, 2⟩ :
      vector Int))._size = 0 ∧
    (vector.clear (⟨[5, 6], ⟨[false, false]⟩, ⟨[true, false]⟩, 1, 2⟩ :
      vector Int)).empty = true ∧
    (vector.clear (⟨[5, 6], ⟨[false, false]⟩, ⟨[true, false]⟩, 1, 2⟩ :
      vector Int)).valid = true :=
  C7_clear_amended
    (⟨[5, 6], ⟨[false, false]⟩, ⟨[true, false]⟩, 1, 2⟩ : vector Int)
    (by decide) (by decide) (by decide)

/-- C8: empty() is true exactly when the clamped size() is 0, full() is true
exactly when the clamped size() equals max_size(), max_size() equals
capacity(), and capacity is unchanged by push_back, pop_back and clear. -/
theorem C8_derived_queries {T : Type} [Inhabited T] (v : vector T) (e : T) :
    (v.empty = true ↔ v.size = 0) ∧
    (v.full = true ↔ v.size = v.max_size) ∧
    v.max_size = v.capacity ∧
    ((v.push_back e).all (fun r => r.1.capacity == v.capacity) = true) ∧
    ((v.pop_back).all (fun r => r.2.capacity == v.capacity) = true) ∧
    (v.clear).capacity = v.capacity := by
  refine ⟨by simp [vector.empty], by simp [vector.full], rfl, ?_, ?_, ?_⟩
  · unfold vector.push_back vector.push_back_reserve
    split
    · simp [vector.capacity]
    · dsimp only
      split
      · split
        · rfl
        · split
          · rfl
          · simp [vector.capacity]
      · simp [vector.capacity]
  · unfold vector.pop_back vector.pop_back_reserve
    split
    · simp [vector.capacity]
    · dsimp only
      split
      · split
        · rfl
        · split
          · simp [vector.capacity]
          · rfl
      · simp [vector.capacity]
  · unfold vector.clear
    split
    · rfl
    · rfl

/-- C9: valid() returns true when capacity() is 0, and otherwise returns true
exactly when the raw counter lies in [0, capacity], the occupancy bitset's
population count equals the reported clamped size(), and the lock array
reports no lock held. -/
theorem C9_valid_characterisation {T : Type} (v : vector T) :
    (v.capacity = 0 → v.valid = true) ∧
    (v.capacity ≠ 0 →
      (v.valid = true ↔
        (0 ≤ v._size ∧ v._size ≤ v._capacity ∧
         v.size = v._occupied.count ∧
         v._locks.valid = true))) := by
  constructor
  · intro h
    simp only [vector.capacity] at h
    simp [vector.valid, vector.capacity, h]
  · intro h
    simp only [vector.capacity] at h
    simp [vector.valid, vector.capacity, h, vector.size_valid,
      vector.occupied_count_valid, Bool.and_eq_true, decide_eq_true_eq,
      beq_iff_eq, and_assoc]

/-- C9 witness: the characterisation applied to a concrete valid one-slot
state. -/
theorem C9_witness :
    (vector.capacity (⟨[5], ⟨[false]⟩, ⟨[true]⟩, 1, 1⟩ : vector Int) = 0 →
      vector.valid (⟨[5], ⟨[false]⟩, ⟨[true]⟩, 1, 1⟩ : vector Int) = true) ∧
    (vector.capacity (⟨[5], ⟨[false]⟩, ⟨[true]⟩, 1, 1⟩ : vector Int) ≠ 0 →
      (vector.valid (⟨[5], ⟨[false]⟩, ⟨[true]⟩, 1, 1⟩ : vector Int) = true ↔
        ((0 : Int) ≤ 1 ∧ (1 : Int) ≤ 1 ∧
         vector.size (⟨[5], ⟨[false]⟩, ⟨[true]⟩, 1, 1⟩ : vector Int)
           = bitset.count ⟨[true]⟩ ∧
         mutex_array.valid ⟨[false]⟩ = true))) :=
  C9_valid_characterisation (⟨[5], ⟨[false]⟩, ⟨[true]⟩, 1, 1⟩ : vector Int)

theorem countP_replicate_false (k : Nat) :
    (List.replicate k false).countP (fun x => x) = 0 := by
  rw [List.countP_eq_zero]
  intro a ha
  simp [List.eq_of_mem_replicate ha]

/-- C10: createDeviceObject(size) has precondition size > 0 and returns a
fresh state whose capacity equals the requested size, whose size() reports 0,
whose occupancy bits are all false, whose data slots all hold
default-constructed elements, with no lock held, and on which valid()
holds. -/
theorem C10_create_valid (T : Type) [Inhabited T] (n : Int) (h : 0 < n) :
    (vector.createDeviceObject T n).capacity = n ∧
    (vector.createDeviceObject T n).size = 0 ∧
    (vector.createDeviceObject T n)._occupied.bits
      = List.replicate n.toNat false ∧
    (vector.createDeviceObject T n)._data
      = List.replicate n.toNat default ∧
    (vector.createDeviceObject T n)._locks.valid = true ∧
    (vector.createDeviceObject T n).valid = true := by
  have h1 : ¬ (0 : Int) > n := by omega
  have h2 : n ≠ 0 := by omega
  refine ⟨rfl, ?_, rfl, rfl, ?_, ?_⟩
  · simp [vector.createDeviceObject, vector.size, h1]
  · simp [vector.createDeviceObject, mutex_array.valid, List.all_eq_true]
  · simp [vector.valid, vector.capacity, vector.createDeviceObject, h2,
      vector.size_valid, vector.occupied_count_valid, vector.size, h1,
      bitset.count, countP_replicate_false, mutex_array.valid,
      List.all_eq_true]
    omega

/-- C10 witness: a freshly created capacity-3 vector of integers. -/
theorem C10_witness :
    (vector.createDeviceObject Int 3).capacity = 3 ∧
    (vector.createDeviceObject Int 3).size = 0 ∧
    (vector.createDeviceObject Int 3)._occupied.bits
      = List.replicate (3 : Int).toNat false ∧
    (vector.createDeviceObject Int 3)._data
      = List.replicate (3 : Int).toNat default ∧
    (vector.createDeviceObject Int 3)._locks.valid = true ∧
    (vector.createDeviceObject Int 3).valid = true :=
  C10_create_valid Int 3 (by decide)
